import Mathlib

/-!
Verification of the scripture-extraction tools
(`tools/extract_scriptures.py` and `tools/extract_bibles.py`).

The development shallowly embeds the three core components:
the versification loader (`load_versification`), the book-list
flattener (`get_all_books`) and the diatheke output parsers
(`parse_diatheke_output`, in its hardened and baseline variants).
Regular expressions are embedded through a small backtracking
matcher that reproduces Python's leftmost, greedy-with-backtracking
semantics for the specific patterns used by the source.
-/

namespace Extract

/-- Python's `\s` / `str.strip()` whitespace, restricted to the ASCII
whitespace characters that are relevant to diatheke output. -/
def isPySpace (c : Char) : Bool :=
  c == ' ' || c == '\t' || c == '\n' || c == '\r' || c == '\x0b' || c == '\x0c'

/-- `str.strip()`: drop leading and trailing whitespace. -/
def pyStrip (s : List Char) : List Char :=
  ((s.dropWhile isPySpace).reverse.dropWhile isPySpace).reverse

/-- `str.split()` with no separator: whitespace-delimited words, empties dropped.
Accumulator variant; `cur` holds the current word reversed. -/
def pyWordsAux : List Char → List Char → List (List Char)
  | cur, [] => if cur.isEmpty then [] else [cur.reverse]
  | cur, c :: rest =>
      if isPySpace c then
        if cur.isEmpty then pyWordsAux [] rest else cur.reverse :: pyWordsAux [] rest
      else
        pyWordsAux (c :: cur) rest

def pyWords (s : List Char) : List (List Char) := pyWordsAux [] s

/-- `' '.join(words)`. -/
def joinSpace : List (List Char) → List Char
  | [] => []
  | [w] => w
  | w :: ws => w ++ ' ' :: joinSpace ws

/-- `int(...)` on a digit string. -/
def digitsToNat (ds : List Char) : Nat :=
  ds.foldl (fun n c => n * 10 + (c.toNat - '0'.toNat)) 0

/-- Regex abstract syntax for the patterns appearing in the source.
Stars/pluses over single character classes, plus a group star (`gstar`)
whose body is required to consume input on every iteration (true of
every group star in the source, each of which starts with `\s+`). -/
inductive RE where
  | eps : RE
  | cls : (Char → Bool) → RE
  | lit : List Char → RE
  | cat : RE → RE → RE
  | alt : RE → RE → RE
  | opt : RE → RE
  | plusC : (Char → Bool) → RE
  | starC : (Char → Bool) → RE
  | gstar : RE → RE

/-- Try dropping `n`, `n-1`, ..., `0` characters (greedy: longest first),
returning the first continuation success.  Used for `X*` over a class. -/
def tryDrops {α : Type} (k : List Char → Option α) (s : List Char) : Nat → Option α
  | 0 => k s
  | n + 1 =>
      match k (s.drop (n + 1)) with
      | some r => some r
      | none => tryDrops k s n

/-- Like `tryDrops` but requiring at least one character: `X+` over a class. -/
def tryDropsPos {α : Type} (k : List Char → Option α) (s : List Char) : Nat → Option α
  | 0 => none
  | n + 1 =>
      match k (s.drop (n + 1)) with
      | some r => some r
      | none => tryDropsPos k s n

/-- Greedy iteration of a group-star body `matchA` (try one more iteration
first, fall back to the continuation), requiring each iteration to consume
input.  The fuel bounds the number of iterations; since every iteration
strictly shrinks the input, `s.length + 1` fuel is never exhausted, and the
fuel-zero case coincides with the exit case anyway. -/
def gstarLoop {α : Type} (matchA : List Char → (List Char → Option α) → Option α) :
    Nat → List Char → (List Char → Option α) → Option α
  | 0, s, k => k s
  | n + 1, s, k =>
      match matchA s (fun s' => if s'.length < s.length then gstarLoop matchA n s' k else none) with
      | some r => some r
      | none => k s

/-- Backtracking matcher in continuation-passing style.  Alternatives are
tried in Python's order (left alternative first, greedy repetition longest
first, optional part present first); the first success wins. -/
def matchRE {α : Type} : RE → List Char → (List Char → Option α) → Option α
  | .eps, s, k => k s
  | .cls p, s, k =>
      match s with
      | [] => none
      | c :: s' => if p c then k s' else none
  | .lit cs, s, k => if cs.isPrefixOf s then k (s.drop cs.length) else none
  | .cat a b, s, k => matchRE a s fun s' => matchRE b s' k
  | .alt a b, s, k =>
      match matchRE a s k with
      | some r => some r
      | none => matchRE b s k
  | .opt a, s, k =>
      match matchRE a s k with
      | some r => some r
      | none => k s
  | .plusC p, s, k => tryDropsPos k s (s.takeWhile p).length
  | .starC p, s, k => tryDrops k s (s.takeWhile p).length
  | .gstar a, s, k => gstarLoop (fun s' k' => matchRE a s' k') (s.length + 1) s k

/-- Character class `[A-Za-z0-9 ]` of the verse-reference split pattern. -/
def isMarkerChar (c : Char) : Bool := c.isAlpha || c.isDigit || c == ' '

/-- Core of the split pattern `([A-Za-z0-9 ]+\s+\d+:\d+)` (the capture group,
without the trailing `:` and `\s*`). -/
def markerCore : RE :=
  .cat (.plusC isMarkerChar)
    (.cat (.plusC isPySpace)
      (.cat (.plusC Char.isDigit)
        (.cat (.lit [':']) (.plusC Char.isDigit))))

/-- Match `([A-Za-z0-9 ]+\s+\d+:\d+):\s*` at the head of `s`.  Returns the
captured group and the total number of characters consumed. -/
def matchMarkerAt (s : List Char) : Option (List Char × Nat) :=
  matchRE markerCore s fun s' =>
    match s' with
    | ':' :: s'' => some (s.take (s.length - s'.length), s.length - (s''.dropWhile isPySpace).length)
    | _ => none

/-- The attribution pattern `\n\([^)]+\)\s*` (to be matched against a suffix
reaching the end of the input). -/
def attribTail : RE :=
  .cat (.cls (· == '\n'))
    (.cat (.lit ['('])
      (.cat (.plusC (fun c => c != ')'))
        (.cat (.lit [')']) (.starC isPySpace))))

/-- `re.sub(r'\n\([^)]+\)\s*$', '', s)` on an already-stripped `s`: cut the
input at the leftmost position where the attribution pattern matches through
to the end of the input. -/
def removeAttribAux : List Char → List Char → List Char
  | acc, [] => acc.reverse
  | acc, c :: rest =>
      match matchRE attribTail (c :: rest) (fun s' => if s'.isEmpty then some () else none) with
      | some _ => acc.reverse
      | none => removeAttribAux (c :: acc) rest

def removeAttrib (s : List Char) : List Char := removeAttribAux [] s

/-- Scan for `(?:^|\n)` + marker occurrences after the first position: a
separator here always consumes its leading newline.  Every step consumes at
least one character of `rest`, so fuel `rest.length + 1` is never exhausted;
the fuel-zero fallback is unreachable. -/
def splitMarkerAux : Nat → List Char → List Char → List (List Char)
  | _, acc, [] => [acc.reverse]
  | 0, acc, rest => [acc.reverse ++ rest]
  | fuel + 1, acc, c :: rest =>
      if c == '\n' then
        match matchMarkerAt rest with
        | some (g, consumed) => acc.reverse :: g :: splitMarkerAux fuel [] (rest.drop consumed)
        | none => splitMarkerAux fuel (c :: acc) rest
      else
        splitMarkerAux fuel (c :: acc) rest

/-- `re.split(r'(?:^|\n)([A-Za-z0-9 ]+\s+\d+:\d+):\s*', s)`: the list
`[before, group1, between1, group2, between2, ..., tail]`. -/
def splitMarker (s : List Char) : List (List Char) :=
  match matchMarkerAt s with
  | some (g, consumed) => [] :: g :: splitMarkerAux (s.length + 1) [] (s.drop consumed)
  | none => splitMarkerAux (s.length + 1) [] s

/-- The `for i in range(1, len(parts), 2)` pairing of references with bodies
(applied to `parts` with its first element dropped); a trailing unpaired
element is ignored, matching the `i + 1 < len(parts)` guard. -/
def pairsFrom : List (List Char) → List (List Char × List Char)
  | a :: b :: rest => (a, b) :: pairsFrom rest
  | _ => []

/-- `re.search(r':(\d+)$', ref)`: the maximal trailing digit run, which must
be nonempty and preceded by a colon. -/
def refVerseNum (s : List Char) : Option Nat :=
  let r := s.reverse
  let ds := r.takeWhile Char.isDigit
  if ds.isEmpty then none
  else
    match r.drop ds.length with
    | ':' :: _ => some (digitsToNat ds.reverse)
    | _ => none

/-- `I{1,3}V?\s+`: a Roman-numeral book ordinal. -/
def romanPrefix : RE :=
  .cat (.cls (· == 'I'))
    (.cat (.opt (.cat (.cls (· == 'I')) (.opt (.cls (· == 'I')))))
      (.cat (.opt (.cls (· == 'V'))) (.plusC isPySpace)))

/-- `[1-4]\s+`: an Arabic book ordinal. -/
def digitPrefix : RE :=
  .cat (.cls (fun c => '1' ≤ c && c ≤ '4')) (.plusC isPySpace)

/-- `(?:\s+(?:of\s+)?[A-Za-z]+)*`'s iterated body: `\s+(?:of\s+)?[A-Za-z]+`. -/
def wordIter : RE :=
  .cat (.plusC isPySpace)
    (.cat (.opt (.cat (.lit ['o', 'f']) (.plusC isPySpace))) (.plusC Char.isAlpha))

/-- The full placeholder pattern
`^(?:[1-4]\s+|I{1,3}V?\s+)?[A-Za-z]+(?:\s+(?:of\s+)?[A-Za-z]+)*\s+\d+:\d+:?$`. -/
def placeholderRE : RE :=
  .cat (.opt (.alt digitPrefix romanPrefix))
    (.cat (.plusC Char.isAlpha)
      (.cat (.gstar wordIter)
        (.cat (.plusC isPySpace)
          (.cat (.plusC Char.isDigit)
            (.cat (.lit [':'])
              (.cat (.plusC Char.isDigit) (.opt (.lit [':']))))))))

/-- `bool(re.match(placeholder_pattern, t))`: anchored at the start, with the
pattern's own `$` requiring the end of the input. -/
def placeholderMatches (t : List Char) : Bool :=
  (matchRE placeholderRE t (fun s' => if s'.isEmpty then some () else none)).isSome

/-- `is_placeholder_text` from `extract_scriptures.py`. -/
def is_placeholder_text (text : List Char) : Bool :=
  let t := pyStrip text
  if t.length < 5 then true
  else placeholderMatches t

/-- One parsed verse: `{"number": ..., "text": ...}`. -/
structure Verse where
  number : Nat
  text : List Char
deriving Repr, DecidableEq

/-- The per-pair body of the hardened parser's loop
(`extract_scriptures.parse_diatheke_output`): emit at most one verse for a
(reference, body) pair. -/
def processPairScriptures (pr : List Char × List Char) : Option Verse :=
  let ref := pyStrip pr.1
  let text := pyStrip pr.2
  match refVerseNum ref with
  | none => none
  | some n =>
      if text.isEmpty then none
      else if is_placeholder_text text then none
      else some ⟨n, joinSpace (pyWords text)⟩

/-- The per-pair body of the baseline parser's loop
(`extract_bibles.parse_diatheke_output`): no placeholder filtering. -/
def processPairBibles (pr : List Char × List Char) : Option Verse :=
  let ref := pyStrip pr.1
  let text := pyStrip pr.2
  match refVerseNum ref with
  | none => none
  | some n =>
      if text.isEmpty then none
      else some ⟨n, joinSpace (pyWords text)⟩

/-- The reference/body pairs that both parsers iterate over. -/
def diathekePairs (output : List Char) : List (List Char × List Char) :=
  pairsFrom (splitMarker (removeAttrib (pyStrip output))).tail

end Extract

namespace ExtractScriptures

open Extract

/-- `parse_diatheke_output` from `extract_scriptures.py` (hardened variant,
with placeholder filtering).  `book_id` and `chapter` are accepted but unused,
as in the source. -/
def parse_diatheke_output (output : String) (_book_id : String) (_chapter : Nat) : List Verse :=
  (diathekePairs output.data).filterMap processPairScriptures

end ExtractScriptures

namespace ExtractBibles

open Extract

/-- `parse_diatheke_output` from `extract_bibles.py` (baseline variant,
without placeholder filtering). -/
def parse_diatheke_output (output : String) (_book_id : String) (_chapter : Nat) : List Verse :=
  (diathekePairs output.data).filterMap processPairBibles

end ExtractBibles

namespace Extract

/-- A sub-book record inside a composite book entry's `sub_books`.  The code
reads `id` directly and `name`/`chapters` via `.get`; the data model also
allows a `testament` field on a sub-book (the code never reads it). -/
structure SubBook where
  id : String
  name : Option String := none
  chapters : Option Nat := none
  testament : Option String := none
deriving Repr, DecidableEq

/-- A book entry of a canon definition (and the shape of the dictionaries
emitted by `get_all_books`, which carry only `id`, `name`, `chapters` and
`testament`). -/
structure BookEntry where
  id : String
  name : String
  chapters : Option Nat := none
  testament : Option String := none
  merge_with : Option String := none
  sub_books : Option (List SubBook) := none
  insert_after : Option String := none
deriving Repr, DecidableEq

/-- A parsed versification YAML document.  `extendsName` models the
`extends` key (a Lean keyword). -/
structure Versification where
  name : Option String := none
  tradition : Option String := none
  book_count : Option Nat := none
  extendsName : Option String := none
  books : Option (List BookEntry) := none
  additional_books : Option (List BookEntry) := none
deriving Repr, DecidableEq

/-- Python truthiness of an optional string (`if insert_after:`,
`if book.get("merge_with"):`): present and non-empty. -/
def truthyStr : Option String → Bool
  | some s => !(s == "")
  | none => false

/-- The `for i, book in enumerate(books): ... else: books.append(add_book)`
search-and-insert: insert `b` immediately after the first entry whose `id`
equals `anchor`, appending at the end when no entry matches. -/
def insertAfterId (anchor : String) (b : BookEntry) : List BookEntry → List BookEntry
  | [] => [b]
  | x :: xs => if x.id = anchor then x :: b :: xs else x :: insertAfterId anchor b xs

/-- One iteration of the merge loop of `load_versification`. -/
def insertBook (books : List BookEntry) (b : BookEntry) : List BookEntry :=
  match b.insert_after with
  | some a => if a == "" then books ++ [b] else insertAfterId a b books
  | none => books ++ [b]

/-- The merge loop: fold the child's `additional_books` (in declared order)
into a copy of the parent's books. -/
def mergeBooks (parentBooks : List BookEntry) (adds : List BookEntry) : List BookEntry :=
  adds.foldl insertBook parentBooks

/-- Errors of the loader: a missing versification file
(`FileNotFoundError`), or exhaustion of the modelled recursion budget
(Python's `RecursionError` on a cyclic or too-deep `extends` chain). -/
inductive LoadError where
  | notFound (name : String)
  | recursionLimit
deriving Repr, DecidableEq

/-- `load_versification` from `extract_scriptures.py`.  The file system is
modelled as a partial map `files` from versification names to their parsed
YAML documents; `fuel` bounds the recursion depth of the `extends` chain. -/
def load_versification (files : String → Option Versification) :
    Nat → String → Except LoadError Versification
  | 0, _ => .error .recursionLimit
  | fuel + 1, name =>
      match files name with
      | none => .error (.notFound name)
      | some data =>
          match data.extendsName with
          | none => .ok data
          | some parent =>
              match load_versification files fuel parent with
              | .error e => .error e
              | .ok pv =>
                  .ok { data with
                        books := some (mergeBooks (pv.books.getD []) (data.additional_books.getD [])) }

/-- The body of `get_all_books`' loop for a single entry: skip truthy
`merge_with`, expand `sub_books` (sub `name` defaulting to its `id`, sub
`chapters` defaulting to `1`, `testament` taken from the parent entry with
default `"OT"`), skip a plain entry without `chapters`. -/
def expandBookEntry (book : BookEntry) : List BookEntry :=
  if truthyStr book.merge_with then []
  else
    match book.sub_books with
    | some subs =>
        subs.map fun sub =>
          { id := sub.id
            name := sub.name.getD sub.id
            chapters := some (sub.chapters.getD 1)
            testament := some (book.testament.getD "OT") }
    | none =>
        match book.chapters with
        | none => []
        | some c =>
            [{ id := book.id
               name := book.name
               chapters := some c
               testament := some (book.testament.getD "OT") }]

/-- `get_all_books` from `extract_scriptures.py`. -/
def get_all_books (versification : Versification) : List BookEntry :=
  (versification.books.getD []).bind expandBookEntry

/-- Locate the index of the first entry whose `id` equals the target
(the spec's "locate the index of the entry whose `id` equals the target
`insert_after`"). -/
def locateIdx (a : String) : List BookEntry → Option Nat
  | [] => none
  | x :: xs => if x.id = a then some 0 else (locateIdx a xs).map (· + 1)

/-- The spec's description of one merge step: when `insert_after` is present
(and truthy) and an entry with that id exists, splice immediately after it;
otherwise append to the end. -/
def specInsert (books : List BookEntry) (b : BookEntry) : List BookEntry :=
  if truthyStr b.insert_after then
    match locateIdx (b.insert_after.getD "") books with
    | some j => books.take (j + 1) ++ b :: books.drop (j + 1)
    | none => books ++ [b]
  else books ++ [b]

/-- A simple (non-composite, non-merged) book entry with a chapter count, as
in the `BOOKS` table of `extract_bibles.py`. -/
def mkBook (id name testament : String) (chapters : Nat) : BookEntry :=
  { id := id, name := name, chapters := some chapters, testament := some testament }

/-- The `BOOKS` table of `extract_bibles.py`: the KJV (Protestant)
versification, 66 books with chapter counts. -/
def BOOKS : List BookEntry :=
  [ mkBook "Gen" "Genesis" "OT" 50
  , mkBook "Exod" "Exodus" "OT" 40
  , mkBook "Lev" "Leviticus" "OT" 27
  , mkBook "Num" "Numbers" "OT" 36
  , mkBook "Deut" "Deuteronomy" "OT" 34
  , mkBook "Josh" "Joshua" "OT" 24
  , mkBook "Judg" "Judges" "OT" 21
  , mkBook "Ruth" "Ruth" "OT" 4
  , mkBook "1Sam" "1 Samuel" "OT" 31
  , mkBook "2Sam" "2 Samuel" "OT" 24
  , mkBook "1Kgs" "1 Kings" "OT" 22
  , mkBook "2Kgs" "2 Kings" "OT" 25
  , mkBook "1Chr" "1 Chronicles" "OT" 29
  , mkBook "2Chr" "2 Chronicles" "OT" 36
  , mkBook "Ezra" "Ezra" "OT" 10
  , mkBook "Neh" "Nehemiah" "OT" 13
  , mkBook "Esth" "Esther" "OT" 10
  , mkBook "Job" "Job" "OT" 42
  , mkBook "Ps" "Psalms" "OT" 150
  , mkBook "Prov" "Proverbs" "OT" 31
  , mkBook "Eccl" "Ecclesiastes" "OT" 12
  , mkBook "Song" "Song of Solomon" "OT" 8
  , mkBook "Isa" "Isaiah" "OT" 66
  , mkBook "Jer" "Jeremiah" "OT" 52
  , mkBook "Lam" "Lamentations" "OT" 5
  , mkBook "Ezek" "Ezekiel" "OT" 48
  , mkBook "Dan" "Daniel" "OT" 12
  , mkBook "Hos" "Hosea" "OT" 14
  , mkBook "Joel" "Joel" "OT" 3
  , mkBook "Amos" "Amos" "OT" 9
  , mkBook "Obad" "Obadiah" "OT" 1
  , mkBook "Jonah" "Jonah" "OT" 4
  , mkBook "Mic" "Micah" "OT" 7
  , mkBook "Nah" "Nahum" "OT" 3
  , mkBook "Hab" "Habakkuk" "OT" 3
  , mkBook "Zeph" "Zephaniah" "OT" 3
  , mkBook "Hag" "Haggai" "OT" 2
  , mkBook "Zech" "Zechariah" "OT" 14
  , mkBook "Mal" "Malachi" "OT" 4
  , mkBook "Matt" "Matthew" "NT" 28
  , mkBook "Mark" "Mark" "NT" 16
  , mkBook "Luke" "Luke" "NT" 24
  , mkBook "John" "John" "NT" 21
  , mkBook "Acts" "Acts" "NT" 28
  , mkBook "Rom" "Romans" "NT" 16
  , mkBook "1Cor" "1 Corinthians" "NT" 16
  , mkBook "2Cor" "2 Corinthians" "NT" 13
  , mkBook "Gal" "Galatians" "NT" 6
  , mkBook "Eph" "Ephesians" "NT" 6
  , mkBook "Phil" "Philippians" "NT" 4
  , mkBook "Col" "Colossians" "NT" 4
  , mkBook "1Thess" "1 Thessalonians" "NT" 5
  , mkBook "2Thess" "2 Thessalonians" "NT" 3
  , mkBook "1Tim" "1 Timothy" "NT" 6
  , mkBook "2Tim" "2 Timothy" "NT" 4
  , mkBook "Titus" "Titus" "NT" 3
  , mkBook "Phlm" "Philemon" "NT" 1
  , mkBook "Heb" "Hebrews" "NT" 13
  , mkBook "Jas" "James" "NT" 5
  , mkBook "1Pet" "1 Peter" "NT" 5
  , mkBook "2Pet" "2 Peter" "NT" 3
  , mkBook "1John" "1 John" "NT" 5
  , mkBook "2John" "2 John" "NT" 1
  , mkBook "3John" "3 John" "NT" 1
  , mkBook "Jude" "Jude" "NT" 1
  , mkBook "Rev" "Revelation" "NT" 22 ]

/-- Modelled from the spec: the data file `versifications/protestant.yaml`
read by `load_versification` is not part of the sources; per the spec the
Protestant canon is the 66-book KJV versification, whose book entries are
taken from the `BOOKS` table of `extract_bibles.py`. -/
def protestantVersification : Versification :=
  { name := some "Protestant"
    tradition := some "christian"
    book_count := some 66
    books := some BOOKS }

/-- A resolvable name: its definition source exists and its whole `extends`
chain exists within the given depth. -/
def resolvable (files : String → Option Versification) : Nat → String → Bool
  | 0, _ => false
  | fuel + 1, name =>
      match files name with
      | none => false
      | some d =>
          match d.extendsName with
          | none => true
          | some p => resolvable files fuel p

/-- Tobit, a deuterocanonical addition anchored after Nehemiah. -/
def addTob : BookEntry :=
  { mkBook "Tob" "Tobit" "DC" 14 with insert_after := some "Neh" }

/-- Judith, a second deuterocanonical addition with the same anchor. -/
def addJdt : BookEntry :=
  { mkBook "Jdt" "Judith" "DC" 16 with insert_after := some "Neh" }

/-- A small parent canon used by concrete instantiations. -/
def smallParent : Versification :=
  { name := some "Protestant"
    tradition := some "christian"
    books := some [mkBook "Gen" "Genesis" "OT" 50, mkBook "Neh" "Nehemiah" "OT" 13,
                   mkBook "Rev" "Revelation" "NT" 22] }

/-- A small child canon extending `smallParent` with one additional book. -/
def smallChild : Versification :=
  { name := some "Catholic"
    tradition := some "christian"
    extendsName := some "parent"
    additional_books := some [addTob] }

/-- A two-file environment: `parent.yaml` and `child.yaml`. -/
def smallFiles : String → Option Versification := fun n =>
  if n = "parent" then some smallParent
  else if n = "child" then some smallChild
  else none

/-- A child canon whose declared parent has no definition source. -/
def orphanChild : Versification :=
  { name := some "Catholic", tradition := some "christian", extendsName := some "protestant" }

/-- An environment containing only `catholic.yaml`, which extends the
missing `protestant.yaml`. -/
def orphanFiles : String → Option Versification := fun n =>
  if n = "catholic" then some orphanChild else none

/-- A sub-book that declares its own `testament` (`"NT"`), different from
its parent entry's. -/
def subWithNT : SubBook :=
  { id := "SubA", chapters := some 3, testament := some "NT" }

/-- A sub-book with no `chapters` field. -/
def subNoChapters : SubBook :=
  { id := "SubB" }

/-- A composite book entry (testament `"OT"`) with the two sub-books above. -/
def compositeEntry : BookEntry :=
  { id := "Comp", name := "Composite", testament := some "OT",
    sub_books := some [subWithNT, subNoChapters] }

/-- A one-entry canon containing only the composite entry. -/
def compositeV : Versification :=
  { name := some "Test", books := some [compositeEntry] }

end Extract

namespace Extract

lemma pyStrip_eq_rdropWhile (s : List Char) :
    pyStrip s = List.rdropWhile isPySpace (s.dropWhile isPySpace) := rfl

lemma dropWhile_pyStrip (s : List Char) :
    (pyStrip s).dropWhile isPySpace = pyStrip s := by
  rw [pyStrip_eq_rdropWhile]
  obtain ⟨w, hw⟩ := List.rdropWhile_prefix isPySpace (s.dropWhile isPySpace)
  cases hv : List.rdropWhile isPySpace (s.dropWhile isPySpace) with
  | nil => simp
  | cons c t =>
      have hcu : s.dropWhile isPySpace = c :: (t ++ w) := by
        rw [← hw, hv]; simp
      have hpc : ¬ (isPySpace c = true) := by
        intro hc
        have hidem := List.dropWhile_idempotent (l := s) (p := isPySpace)
        rw [hcu, List.dropWhile_cons_of_pos hc] at hidem
        have hsub := (List.dropWhile_sublist (l := t ++ w) (p := isPySpace)).length_le
        have hlen := congrArg List.length hidem
        simp [List.length_append] at hlen hsub
        omega
      rw [List.dropWhile_cons_of_neg hpc]

lemma pyStrip_idem (s : List Char) : pyStrip (pyStrip s) = pyStrip s := by
  have h1 : pyStrip (pyStrip s) = List.rdropWhile isPySpace ((pyStrip s).dropWhile isPySpace) :=
    pyStrip_eq_rdropWhile _
  rw [h1, dropWhile_pyStrip, pyStrip_eq_rdropWhile]
  exact List.rdropWhile_idempotent _ _

lemma pyStrip_head_not_space {s : List Char} {c : Char} {t : List Char}
    (h : pyStrip s = c :: t) : isPySpace c = false := by
  have hd := dropWhile_pyStrip s
  rw [h] at hd
  cases hc : isPySpace c with
  | false => rfl
  | true =>
      rw [List.dropWhile_cons_of_pos hc] at hd
      have hsub := (List.dropWhile_sublist (l := t) (p := isPySpace)).length_le
      have hlen := congrArg List.length hd
      simp at hlen
      omega

lemma pyStrip_eq_nil_of_all_space {s : List Char} (h : ∀ c ∈ s, isPySpace c = true) :
    pyStrip s = [] := by
  have h1 : s.dropWhile isPySpace = [] := by
    rw [List.dropWhile_eq_nil_iff]
    intro x hx; simp [h x hx]
  rw [pyStrip_eq_rdropWhile, h1]
  rfl

lemma pyWordsAux_ne_nil (l : List Char) : ∀ cur : List Char, cur ≠ [] →
    ∃ w ws, pyWordsAux cur l = w :: ws ∧ w ≠ [] := by
  induction l with
  | nil =>
      intro cur hc
      refine ⟨cur.reverse, [], ?_, by simpa using hc⟩
      simp [pyWordsAux, hc]
  | cons c rest ih =>
      intro cur hc
      cases hsp : isPySpace c with
      | true =>
          refine ⟨cur.reverse, pyWordsAux [] rest, ?_, by simpa using hc⟩
          simp [pyWordsAux, hsp, hc]
      | false =>
          obtain ⟨w, ws, hw, hwne⟩ := ih (c :: cur) (by simp)
          exact ⟨w, ws, by simp [pyWordsAux, hsp, hw], hwne⟩

lemma joinSpace_pyWords_ne_nil {s : List Char} {c : Char} {t : List Char}
    (h : pyStrip s = c :: t) : joinSpace (pyWords (pyStrip s)) ≠ [] := by
  have hc := pyStrip_head_not_space h
  rw [h]
  have h1 : pyWords (c :: t) = pyWordsAux [c] t := by
    simp [pyWords, pyWordsAux, hc]
  obtain ⟨w, ws, hw, hwne⟩ := pyWordsAux_ne_nil t [c] (by simp)
  rw [h1, hw]
  cases ws with
  | nil => simpa [joinSpace] using hwne
  | cons w2 ws2 =>
      simp only [joinSpace]
      intro hcontra
      exact absurd (List.append_eq_nil.mp hcontra).2 (by simp)

lemma processPairScriptures_text_ne_nil {pr : List Char × List Char} {v : Verse}
    (h : processPairScriptures pr = some v) : v.text ≠ [] := by
  unfold processPairScriptures at h
  cases hr : refVerseNum (pyStrip pr.1) with
  | none => simp [hr] at h
  | some n =>
      simp only [hr] at h
      by_cases he : (pyStrip pr.2).isEmpty
      · simp [he] at h
      · by_cases hp : is_placeholder_text (pyStrip pr.2)
        · simp [he, hp] at h
        · rw [if_neg he, if_neg hp] at h
          injection h with h
          have hne : pyStrip pr.2 ≠ [] := by
            intro hnil; rw [hnil] at he; simp at he
          obtain ⟨c, t, ht⟩ := List.exists_cons_of_ne_nil hne
          rw [← h]
          exact joinSpace_pyWords_ne_nil ht

lemma processPairBibles_text_ne_nil {pr : List Char × List Char} {v : Verse}
    (h : processPairBibles pr = some v) : v.text ≠ [] := by
  unfold processPairBibles at h
  cases hr : refVerseNum (pyStrip pr.1) with
  | none => simp [hr] at h
  | some n =>
      simp only [hr] at h
      by_cases he : (pyStrip pr.2).isEmpty
      · simp [he] at h
      · rw [if_neg he] at h
        injection h with h
        have hne : pyStrip pr.2 ≠ [] := by
          intro hnil; rw [hnil] at he; simp at he
        obtain ⟨c, t, ht⟩ := List.exists_cons_of_ne_nil hne
        rw [← h]
        exact joinSpace_pyWords_ne_nil ht

lemma insertAfterId_eq_specLocate (a : String) (b : BookEntry) :
    ∀ l : List BookEntry, insertAfterId a b l =
      match locateIdx a l with
      | some j => l.take (j + 1) ++ b :: l.drop (j + 1)
      | none => l ++ [b] := by
  intro l
  induction l with
  | nil => rfl
  | cons x xs ih =>
      by_cases hx : x.id = a
      · simp [insertAfterId, locateIdx, hx]
      · cases h2 : locateIdx a xs with
        | none => simp [insertAfterId, locateIdx, hx, h2, h2 ▸ ih]
        | some j => simp [insertAfterId, locateIdx, hx, h2, h2 ▸ ih]

lemma insertBook_eq_specInsert (bs : List BookEntry) (b : BookEntry) :
    insertBook bs b = specInsert bs b := by
  cases hb : b.insert_after with
  | none => simp [insertBook, specInsert, truthyStr, hb]
  | some a =>
      by_cases ha : a = ""
      · simp [insertBook, specInsert, truthyStr, hb, ha]
      · simp [insertBook, specInsert, truthyStr, hb, ha, insertAfterId_eq_specLocate]

lemma mergeBooks_eq_foldl_specInsert (adds : List BookEntry) :
    ∀ bs : List BookEntry, mergeBooks bs adds = adds.foldl specInsert bs := by
  induction adds with
  | nil => intro bs; rfl
  | cons b rest ih =>
      intro bs
      show (b :: rest).foldl insertBook bs = (b :: rest).foldl specInsert bs
      rw [List.foldl_cons, List.foldl_cons, insertBook_eq_specInsert]
      exact ih _

lemma insertAfterId_append_anchor (a : String) (b anchor : BookEntry)
    (hanchor : anchor.id = a) :
    ∀ (xs ys : List BookEntry), (∀ x ∈ xs, x.id ≠ a) →
      insertAfterId a b (xs ++ anchor :: ys) = xs ++ anchor :: b :: ys := by
  intro xs
  induction xs with
  | nil => intro ys _; simp [insertAfterId, hanchor]
  | cons x xs ih =>
      intro ys hxs
      have hx : x.id ≠ a := hxs x (by simp)
      change (if x.id = a then x :: b :: (xs ++ anchor :: ys)
              else x :: insertAfterId a b (xs ++ anchor :: ys)) = _
      rw [if_neg hx, ih ys (fun x' hx' => hxs x' (by simp [hx']))]
      simp

lemma mergeBooks_same_anchor (a : String) (anchor : BookEntry) (hanchor : anchor.id = a)
    (ha : a ≠ "") :
    ∀ (adds xs ys : List BookEntry), (∀ x ∈ xs, x.id ≠ a) →
      (∀ b ∈ adds, b.insert_after = some a) →
      mergeBooks (xs ++ anchor :: ys) adds = xs ++ anchor :: (adds.reverse ++ ys) := by
  intro adds
  induction adds with
  | nil => intro xs ys _ _; simp [mergeBooks]
  | cons b rest ih =>
      intro xs ys hxs hadds
      have hb : b.insert_after = some a := hadds b (by simp)
      have h1 : insertBook (xs ++ anchor :: ys) b = xs ++ anchor :: b :: ys := by
        have h0 : insertBook (xs ++ anchor :: ys) b = insertAfterId a b (xs ++ anchor :: ys) := by
          simp [insertBook, hb, ha]
        rw [h0]
        exact insertAfterId_append_anchor a b anchor hanchor xs ys hxs
      show (b :: rest).foldl insertBook (xs ++ anchor :: ys) = _
      rw [List.foldl_cons, h1]
      have h2 := ih xs (b :: ys) hxs (fun b' hb' => hadds b' (by simp [hb']))
      rw [show rest.foldl insertBook (xs ++ anchor :: b :: ys) =
            mergeBooks (xs ++ anchor :: b :: ys) rest from rfl, h2]
      simp

lemma mem_get_all_books_of_sub {v : Versification} {b : BookEntry} {subs : List SubBook}
    {sub : SubBook} (hb : b ∈ v.books.getD []) (hm : truthyStr b.merge_with = false)
    (hs : b.sub_books = some subs) (hsub : sub ∈ subs) :
    ({ id := sub.id, name := sub.name.getD sub.id, chapters := some (sub.chapters.getD 1),
       testament := some (b.testament.getD "OT") } : BookEntry) ∈ get_all_books v := by
  unfold get_all_books
  refine List.mem_bind.mpr ⟨b, hb, ?_⟩
  simp only [expandBookEntry, hm, Bool.false_eq_true, if_false, hs]
  exact List.mem_map.mpr ⟨sub, hsub, rfl⟩

lemma get_all_books_mem_invariant {v : Versification} {u : BookEntry}
    (hu : u ∈ get_all_books v) : u.merge_with = none ∧ u.chapters.isSome = true := by
  obtain ⟨b, _, hub⟩ := List.mem_bind.mp hu
  unfold expandBookEntry at hub
  by_cases hm : truthyStr b.merge_with
  · simp [hm] at hub
  · simp only [hm, Bool.false_eq_true, if_false] at hub
    cases hs : b.sub_books with
    | some subs =>
        rw [hs] at hub
        obtain ⟨sub, _, hsub⟩ := List.mem_map.mp hub
        rw [← hsub]
        exact ⟨rfl, rfl⟩
    | none =>
        rw [hs] at hub
        cases hc : b.chapters with
        | none => rw [hc] at hub; simp at hub
        | some c =>
            rw [hc] at hub
            simp only [List.mem_singleton] at hub
            rw [hub]
            exact ⟨rfl, rfl⟩

lemma load_versification_resolvable (files : String → Option Versification) :
    ∀ (fuel : Nat) (name : String), resolvable files fuel name = true →
      ∃ v, load_versification files fuel name = .ok v := by
  intro fuel
  induction fuel with
  | zero => intro name h; simp [resolvable] at h
  | succ n ih =>
      intro name h
      cases hf : files name with
      | none => simp [resolvable, hf] at h
      | some d =>
          cases he : d.extendsName with
          | none => exact ⟨d, by simp [load_versification, hf, he]⟩
          | some p =>
              have hp : resolvable files n p = true := by
                simpa [resolvable, hf, he] using h
              obtain ⟨pv, hpv⟩ := ih p hp
              exact ⟨{ d with books := some (mergeBooks (pv.books.getD [])
                        (d.additional_books.getD [])) },
                     by simp [load_versification, hf, he, hpv]⟩

/-- C1: for every canon definition that declares `extends`, load returns the
child definition whose `books` equals the parent's fully-resolved books with
each entry of the child's `additional_books` (processed in declared order)
inserted immediately after the entry whose `id` equals that entry's
`insert_after`; when `insert_after` is absent (or falsy) or no entry with that
id exists, the entry is appended to the end, and this fallback is not an
error (the result is still `.ok`). -/
theorem claim1_load_extends_merges_books
    (files : String → Option Versification) (fuel : Nat) (name parent : String)
    (d pv : Versification)
    (hname : files name = some d) (hext : d.extendsName = some parent)
    (hparent : load_versification files fuel parent = .ok pv) :
    load_versification files (fuel + 1) name =
      .ok { d with books := some ((d.additional_books.getD []).foldl specInsert
                                    (pv.books.getD [])) } := by
  have h1 : load_versification files (fuel + 1) name =
      .ok { d with books := some (mergeBooks (pv.books.getD [])
                                    (d.additional_books.getD [])) } := by
    simp [load_versification, hname, hext, hparent]
  rw [h1, mergeBooks_eq_foldl_specInsert]

theorem claim1_witness :
    (smallFiles "child" = some smallChild ∧ smallChild.extendsName = some "parent" ∧
      load_versification smallFiles 1 "parent" = .ok smallParent) ∧
    load_versification smallFiles 2 "child" =
      .ok { smallChild with books := some ((smallChild.additional_books.getD []).foldl specInsert
              (smallParent.books.getD [])) } :=
  ⟨⟨rfl, rfl, rfl⟩,
   claim1_load_extends_merges_books smallFiles 1 "child" "parent" smallChild smallParent
     rfl rfl rfl⟩

/-- C2: when several entries of a child canon's `additional_books` name the
same `insert_after` anchor id, each is inserted immediately after the anchor,
so in the merged book list their relative order among themselves is the
reverse of their declared order (`adds.reverse` right after the anchor). -/
theorem claim2_same_anchor_reverses (a : String) (anchor : BookEntry)
    (adds xs ys : List BookEntry) (hanchor : anchor.id = a) (ha : a ≠ "")
    (hxs : ∀ x ∈ xs, x.id ≠ a) (hadds : ∀ b ∈ adds, b.insert_after = some a) :
    mergeBooks (xs ++ anchor :: ys) adds = xs ++ anchor :: (adds.reverse ++ ys) :=
  mergeBooks_same_anchor a anchor hanchor ha adds xs ys hxs hadds

theorem claim2_witness :
    ((mkBook "Neh" "Nehemiah" "OT" 13).id = "Neh" ∧ ("Neh" : String) ≠ "" ∧
      (∀ x ∈ [mkBook "Gen" "Genesis" "OT" 50], x.id ≠ "Neh") ∧
      (∀ b ∈ [addTob, addJdt], b.insert_after = some "Neh")) ∧
    mergeBooks ([mkBook "Gen" "Genesis" "OT" 50] ++ mkBook "Neh" "Nehemiah" "OT" 13 ::
        [mkBook "Rev" "Revelation" "NT" 22]) [addTob, addJdt] =
      [mkBook "Gen" "Genesis" "OT" 50] ++ mkBook "Neh" "Nehemiah" "OT" 13 ::
        ([addTob, addJdt].reverse ++ [mkBook "Rev" "Revelation" "NT" 22]) :=
  ⟨⟨rfl, by decide, by decide, by decide⟩,
   claim2_same_anchor_reverses "Neh" (mkBook "Neh" "Nehemiah" "OT" 13) [addTob, addJdt]
     [mkBook "Gen" "Genesis" "OT" 50] [mkBook "Rev" "Revelation" "NT" 22]
     rfl (by decide) (by decide) (by decide)⟩

/-- C3: for every resolved canon definition, the flattened book list contains
no entry whose `merge_with` attribute is set and no entry lacking a resolvable
chapter count; entries with (truthy) `merge_with` contribute nothing, and
non-composite entries without a `chapters` field contribute nothing. -/
theorem claim3_flatten_invariant (v : Versification) :
    (∀ u ∈ get_all_books v, u.merge_with = none ∧ u.chapters.isSome = true) ∧
    (∀ b ∈ v.books.getD [], truthyStr b.merge_with = true → expandBookEntry b = []) ∧
    (∀ b ∈ v.books.getD [], b.sub_books = none → b.chapters = none →
      expandBookEntry b = []) := by
  refine ⟨fun u hu => get_all_books_mem_invariant hu, fun b _ hm => ?_, fun b _ hs hc => ?_⟩
  · simp [expandBookEntry, hm]
  · simp [expandBookEntry, hs, hc]

theorem claim3_witness :
    (⟨"SubA", "SubA", some 3, some "OT", none, none, none⟩ : BookEntry) ∈
        get_all_books compositeV ∧
    ((⟨"SubA", "SubA", some 3, some "OT", none, none, none⟩ : BookEntry).merge_with = none ∧
      (⟨"SubA", "SubA", some 3, some "OT", none, none, none⟩ : BookEntry).chapters.isSome = true) :=
  ⟨by decide,
   (claim3_flatten_invariant compositeV).1 ⟨"SubA", "SubA", some 3, some "OT", none, none, none⟩
     (by decide)⟩

/-- C4: the hardened parser discards a verse body (that passed the
verse-number and non-emptiness gates) exactly when, after trimming, it is
shorter than 5 characters or it matches the placeholder verse-reference
pattern (book name with an optional Roman-numeral I–IV or Arabic 1–4 ordinal
prefix followed by chapter:verse); in particular the body
`"II Chronicles 19:2:"` is a placeholder and is never emitted as a verse. -/
theorem claim4_placeholder_discard :
    (∀ (ref body : List Char) (n : Nat), refVerseNum (pyStrip ref) = some n →
        pyStrip body ≠ [] →
        (processPairScriptures (ref, body) = none ↔
          ((pyStrip body).length < 5 ∨ placeholderMatches (pyStrip body) = true))) ∧
    is_placeholder_text "II Chronicles 19:2:".data = true ∧
    ExtractScriptures.parse_diatheke_output
      "II Chronicles 19:1: II Chronicles 19:2:\n\n(KJV)" "2Chr" 19 = [] := by
  refine ⟨?_, by decide, by decide⟩
  intro ref body n hr hb
  have hemp : ¬((pyStrip body).isEmpty = true) := by
    simpa [List.isEmpty_iff] using hb
  have hph : is_placeholder_text (pyStrip body) =
      (decide ((pyStrip body).length < 5) || placeholderMatches (pyStrip body)) := by
    unfold is_placeholder_text
    rw [pyStrip_idem]
    by_cases h5 : (pyStrip body).length < 5
    · simp [h5]
    · simp [h5]
  constructor
  · intro h
    unfold processPairScriptures at h
    simp only [hr] at h
    rw [if_neg hemp] at h
    by_cases hp : is_placeholder_text (pyStrip body) = true
    · rw [hph] at hp
      rcases Bool.or_eq_true_iff.mp hp with h5 | hm
      · exact Or.inl (by simpa using h5)
      · exact Or.inr hm
    · rw [if_neg hp] at h
      simp at h
  · intro h
    have hp : is_placeholder_text (pyStrip body) = true := by
      rw [hph]
      rcases h with h5 | hm
      · simp [h5]
      · simp [hm]
    unfold processPairScriptures
    simp only [hr]
    rw [if_neg hemp, if_pos hp]

theorem claim4_witness :
    (refVerseNum (pyStrip "Genesis 1:1".data) = some 1 ∧
      pyStrip "II Chronicles 19:2:".data ≠ []) ∧
    processPairScriptures ("Genesis 1:1".data, "II Chronicles 19:2:".data) = none :=
  ⟨⟨by decide, by decide⟩,
   (claim4_placeholder_discard.1 "Genesis 1:1".data "II Chronicles 19:2:".data 1
       (by decide) (by decide)).mpr (Or.inr (by decide))⟩

/-- C5 counterexample: the composite entry of `compositeV` has testament
`"OT"` while its first sub-book declares its own testament `"NT"`; flattening
emits the parent's `"OT"` for both sub-books, so a sub-book cannot override
the parent entry's testament, refuting the claim. -/
theorem claim5_counterexample :
    (get_all_books compositeV).map BookEntry.testament = [some "OT", some "OT"] ∧
    subWithNT.testament = some "NT" := by
  exact ⟨rfl, rfl⟩

/-- C5 (amended): for every resolved book entry with a `sub_books` sequence
(and non-truthy `merge_with`), flattening emits one unit per sub-book whose
`testament` is always the parent entry's `testament` (default `"OT"`) — the
sub-book's own `testament` field is ignored — and whose `name` defaults to
its `id` when no name is given (chapters defaulting to 1). -/
theorem claim5_sub_inherits_parent_testament (v : Versification) (b : BookEntry)
    (subs : List SubBook) (sub : SubBook) (hb : b ∈ v.books.getD [])
    (hm : truthyStr b.merge_with = false) (hs : b.sub_books = some subs)
    (hsub : sub ∈ subs) :
    ({ id := sub.id, name := sub.name.getD sub.id, chapters := some (sub.chapters.getD 1),
       testament := some (b.testament.getD "OT") } : BookEntry) ∈ get_all_books v :=
  mem_get_all_books_of_sub hb hm hs hsub

theorem claim5_witness :
    (compositeEntry ∈ compositeV.books.getD [] ∧
      truthyStr compositeEntry.merge_with = false ∧
      compositeEntry.sub_books = some [subWithNT, subNoChapters] ∧
      subWithNT ∈ [subWithNT, subNoChapters]) ∧
    ({ id := "SubA", name := "SubA", chapters := some 3,
       testament := some "OT" } : BookEntry) ∈ get_all_books compositeV :=
  ⟨⟨by decide, by decide, by decide, by decide⟩,
   claim5_sub_inherits_parent_testament compositeV compositeEntry [subWithNT, subNoChapters]
     subWithNT (by decide) (by decide) (by decide) (by decide)⟩

/-- C6 counterexample: `orphanFiles` contains a definition source for
`"catholic"`, yet loading `"catholic"` raises the not-found error (for its
missing parent `"protestant"`) instead of returning a definition, refuting
the claim that load succeeds for every name whose own source exists. -/
theorem claim6_counterexample :
    (orphanFiles "catholic").isSome = true ∧
    load_versification orphanFiles 5 "catholic" = .error (.notFound "protestant") :=
  ⟨rfl, rfl⟩

/-- C6 (amended): for every name with no definition source, load fails with
the not-found error for that name; and for every name whose source exists
and whose entire `extends` chain of ancestors exists (within the recursion
budget), load returns a definition without raising that error. -/
theorem claim6_load_notfound_amended (files : String → Option Versification)
    (fuel : Nat) (name : String) :
    (files name = none → load_versification files (fuel + 1) name = .error (.notFound name)) ∧
    (resolvable files fuel name = true → ∃ v, load_versification files fuel name = .ok v) :=
  ⟨fun h => by simp [load_versification, h],
   fun h => load_versification_resolvable files fuel name h⟩

theorem claim6_witness :
    (smallFiles "nonexistent" = none ∧ resolvable smallFiles 2 "child" = true) ∧
    (load_versification smallFiles 3 "nonexistent" = .error (.notFound "nonexistent") ∧
      ∃ v, load_versification smallFiles 2 "child" = .ok v) :=
  ⟨⟨rfl, rfl⟩,
   ⟨(claim6_load_notfound_amended smallFiles 2 "nonexistent").1 rfl,
    (claim6_load_notfound_amended smallFiles 2 "child").2 rfl⟩⟩

/-- C7: for every input that is empty or whitespace-only, and for the
attribution-only input `"(KJV)"`, both parser variants return an empty verse
sequence (and, being total functions, never raise an error). -/
theorem claim7_empty_or_attribution_input (s bid : String) (ch : Nat) :
    ((∀ c ∈ s.data, isPySpace c = true) →
      ExtractScriptures.parse_diatheke_output s bid ch = [] ∧
      ExtractBibles.parse_diatheke_output s bid ch = []) ∧
    (ExtractScriptures.parse_diatheke_output "(KJV)" bid ch = [] ∧
      ExtractBibles.parse_diatheke_output "(KJV)" bid ch = []) := by
  refine ⟨fun h => ?_,
    show (diathekePairs "(KJV)".data).filterMap processPairScriptures = [] by decide,
    show (diathekePairs "(KJV)".data).filterMap processPairBibles = [] by decide⟩
  have hstrip := pyStrip_eq_nil_of_all_space h
  constructor
  · show (pairsFrom (splitMarker (removeAttrib (pyStrip s.data))).tail).filterMap
        processPairScriptures = []
    rw [hstrip]
    decide
  · show (pairsFrom (splitMarker (removeAttrib (pyStrip s.data))).tail).filterMap
        processPairBibles = []
    rw [hstrip]
    decide

theorem claim7_witness :
    (∀ c ∈ ("  \n\t " : String).data, isPySpace c = true) ∧
    (ExtractScriptures.parse_diatheke_output "  \n\t " "Gen" 1 = [] ∧
      ExtractBibles.parse_diatheke_output "  \n\t " "Gen" 1 = []) :=
  ⟨by decide, (claim7_empty_or_attribution_input "  \n\t " "Gen" 1).1 (by decide)⟩

/-- C8: flattening the Protestant canon yields exactly 66 book units; the
first is Genesis (id `"Gen"`, 50 chapters, OT) and the last is Revelation
(id `"Rev"`, 22 chapters, NT), in canonical reading order.  The Protestant
canon definition is modelled from the spec (its YAML data file is not among
the sources) using the `BOOKS` table of `extract_bibles.py`. -/
theorem claim8_protestant_flatten :
    (get_all_books protestantVersification).length = 66 ∧
    (get_all_books protestantVersification).head? =
      some { id := "Gen", name := "Genesis", chapters := some 50, testament := some "OT" } ∧
    (get_all_books protestantVersification).getLast? =
      some { id := "Rev", name := "Revelation", chapters := some 22, testament := some "NT" } := by
  refine ⟨by decide, by decide, by decide⟩

/-- C9: for every input, every verse emitted by either parser variant has
non-empty text: a reference whose body is empty after trimming is skipped by
both variants, including the baseline one without placeholder filtering. -/
theorem claim9_verses_nonempty_text (output bid : String) (ch : Nat) :
    (∀ v ∈ ExtractScriptures.parse_diatheke_output output bid ch, v.text ≠ []) ∧
    (∀ v ∈ ExtractBibles.parse_diatheke_output output bid ch, v.text ≠ []) := by
  constructor
  · intro v hv
    obtain ⟨pr, _, hpr⟩ := List.mem_filterMap.mp hv
    exact processPairScriptures_text_ne_nil hpr
  · intro v hv
    obtain ⟨pr, _, hpr⟩ := List.mem_filterMap.mp hv
    exact processPairBibles_text_ne_nil hpr

theorem claim9_witness :
    (⟨1, "Hello world.".data⟩ : Verse) ∈
        ExtractScriptures.parse_diatheke_output "Genesis 1:1: Hello world.\n\n(KJV)" "Gen" 1 ∧
    (⟨1, "Hello world.".data⟩ : Verse).text ≠ [] :=
  ⟨by decide,
   (claim9_verses_nonempty_text "Genesis 1:1: Hello world.\n\n(KJV)" "Gen" 1).1
     ⟨1, "Hello world.".data⟩ (by decide)⟩

/-- C10: for every composite book entry, a sub-book lacking a `chapters`
field is not skipped: it is emitted as a book unit with a chapter count
defaulting to 1. -/
theorem claim10_sub_missing_chapters_defaults_one (v : Versification) (b : BookEntry)
    (subs : List SubBook) (sub : SubBook) (hb : b ∈ v.books.getD [])
    (hm : truthyStr b.merge_with = false) (hs : b.sub_books = some subs)
    (hsub : sub ∈ subs) (hc : sub.chapters = none) :
    ({ id := sub.id, name := sub.name.getD sub.id, chapters := some 1,
       testament := some (b.testament.getD "OT") } : BookEntry) ∈ get_all_books v := by
  have h := mem_get_all_books_of_sub hb hm hs hsub
  simpa [hc] using h

theorem claim10_witness :
    (compositeEntry ∈ compositeV.books.getD [] ∧
      truthyStr compositeEntry.merge_with = false ∧
      compositeEntry.sub_books = some [subWithNT, subNoChapters] ∧
      subNoChapters ∈ [subWithNT, subNoChapters] ∧ subNoChapters.chapters = none) ∧
    ({ id := "SubB", name := "SubB", chapters := some 1,
       testament := some "OT" } : BookEntry) ∈ get_all_books compositeV :=
  ⟨⟨by decide, by decide, by decide, by decide, by decide⟩,
   claim10_sub_missing_chapters_defaults_one compositeV compositeEntry
     [subWithNT, subNoChapters] subNoChapters (by decide) (by decide) (by decide)
     (by decide) (by decide)⟩

end Extract
